import Mathlib

/-!
Verification of the SageMaker MLOps pipeline core logic.

Shallow embedding of the decision logic of:
  * `lambda/model_evaluator/handler.py` — threshold evaluation
    (`perform_evaluation`) and the approval workflow
    (`handle_model_approval`);
  * `lambda/deployment_orchestrator/handler.py` — the deployment
    reconciliation flow (`lambda_handler`), the post-deployment health
    check (`_verify_endpoint_health`) and rollback
    (`_rollback_deployment`);
  * `lambda-function/trigger-new-file.py` — the create/update/skip
    reconciliation branch of its `lambda_handler`.

Modelling conventions:
  * Python dicts carrying metric/threshold mappings are modelled as
    association lists `List (String × ℚ)`; Python dicts preserve
    insertion order, which the list order mirrors, and dict keys are
    unique, which theorems assume via `Nodup` hypotheses where needed.
  * Float values are modelled as rationals (the code only compares them
    with `>=`).
  * Calls to the SageMaker control plane are recorded in an explicit
    trace (`Call` list); results of the fallible `describe_endpoint`
    call are an input to the embedded handler, as are the results of
    artifact validation, the health check, and the S3 copy.
-/

/-- One entry of `report['results']` in `perform_evaluation`:
status (`"pass"`/`"fail"`/`"missing"`), the observed value (absent for a
missing metric), the threshold, and the boolean verdict. -/
structure CheckResult where
  status : String
  value : Option ℚ
  threshold : ℚ
  passed : Bool
deriving Repr, DecidableEq

/-- The `summary` block of an evaluation report. -/
structure EvalSummary where
  total_checks : ℕ
  passed_checks : ℕ
  failed_checks : ℕ
  pass_rate : ℚ
deriving Repr, DecidableEq

/-- The report produced by `perform_evaluation`. -/
structure EvalReport where
  passed : Bool
  results : List (String × CheckResult)
  summary : EvalSummary
deriving Repr, DecidableEq

/-- The body of `perform_evaluation`'s loop for one threshold entry:
a metric missing from `metrics` is recorded with status `"missing"` and
`passed := false`; a present metric is compared with `>=` (non-strict). -/
def check_metric (metrics : List (String × ℚ)) (p : String × ℚ) :
    String × CheckResult :=
  match metrics.lookup p.1 with
  | none =>
      (p.1, { status := "missing", value := none, threshold := p.2,
              passed := false })
  | some v =>
      (p.1, { status := if p.2 ≤ v then "pass" else "fail", value := some v,
              threshold := p.2, passed := decide (p.2 ≤ v) })

/-- `perform_evaluation(metrics, thresholds)` from
`lambda/model_evaluator/handler.py`: one result entry per threshold in
iteration order; `passed` starts true and is cleared by any missing or
failing metric (equivalently, all entries passed); the summary counts
passed checks and computes `pass_rate = passed_checks/total_checks`
(0 when there are no checks). -/
def perform_evaluation (metrics thresholds : List (String × ℚ)) :
    EvalReport :=
  let results := thresholds.map (check_metric metrics)
  let total_checks := thresholds.length
  let passed_checks := results.countP fun r => r.2.passed
  { passed := results.all fun r => r.2.passed
    results := results
    summary := {
      total_checks := total_checks
      passed_checks := passed_checks
      failed_checks := total_checks - passed_checks
      pass_rate :=
        if 0 < total_checks then (passed_checks : ℚ) / (total_checks : ℚ)
        else 0 } }

/-- The approval decision record returned by `handle_model_approval`. -/
structure ApprovalResult where
  approved : Bool
  approved_path : Option String := none
  message : String
  error : Option String := none
  failed_metrics : Option (List String) := none
deriving Repr, DecidableEq

/-- `handle_model_approval(model_s3_path, evaluation_result,
training_job_name)` from `lambda/model_evaluator/handler.py`, with the
outcome of the `upload_approved_model` S3 copy supplied as an input
(`Except` error-message / approved-path). The second component counts
the storage copy calls made. -/
def handle_model_approval (report : EvalReport)
    (uploadOutcome : Except String String) : ApprovalResult × ℕ :=
  if report.passed then
    match uploadOutcome with
    | .ok path =>
        ({ approved := true, approved_path := some path,
           message := "Model passed evaluation and was approved for deployment" },
         1)
    | .error e =>
        ({ approved := false,
           error := some ("Failed to upload approved model: " ++ e),
           message := "Model passed evaluation but approval upload failed" },
         1)
  else
    ({ approved := false,
       message := "Model failed evaluation and was not approved for deployment",
       failed_metrics :=
         some (((report.results.filter fun r => !r.2.passed).map fun r => r.1)) },
     0)

/-- A SageMaker control-plane call issued by the deployment handlers. -/
inductive Call where
  | createModel (modelName : String)
  | createEndpointConfig (cfgName modelName : String)
  | describeEndpoint (endpointName : String)
  | createEndpoint (endpointName cfgName : String)
  | updateEndpoint (endpointName cfgName : String)
deriving Repr, DecidableEq

/-- `true` exactly for `update_endpoint` calls. -/
def isUpdateCall : Call → Bool
  | .updateEndpoint _ _ => true
  | _ => false

/-- Result of the `describe_endpoint` call in the deployment
orchestrator's step 4: success carries `EndpointStatus` and the optional
`EndpointConfigName`; `notFound` stands for an exception whose text
matches `'Could not find'`/`'ResourceNotFound'`; `otherError` is any
other exception (the code logs a warning and carries on). -/
inductive DescribeResult where
  | ok (status : String) (configName : Option String)
  | notFound
  | otherError
deriving Repr, DecidableEq

/-- Step 4 of the orchestrator's `lambda_handler`: the prior config name
is whatever `describe_endpoint` returned; on any exception
`previous_config_name` stays `None`. -/
def describePrior : DescribeResult → Option String
  | .ok _ cfg => cfg
  | .notFound => none
  | .otherError => none

/-- `_model_name_from_key(key)`: slashes and dots become dashes,
prefixed with `model-`, suffixed with the timestamp. -/
def model_name_from_key (key : String) (ts : ℕ) : String :=
  "model-" ++ ((key.replace "/" "-").replace "." "-") ++ "-" ++ toString ts

/-- `_endpoint_config_name(model_name)`. -/
def endpoint_config_name (modelName : String) : String :=
  "cfg-" ++ modelName

/-- Python's `key.startswith('models/approved/')` from step "Verify
this is from the approved models path", modelled as a prefix test on
the character list of the key. -/
def startsWithApproved (key : String) : Bool :=
  "models/approved/".data.isPrefixOf key.data

/-- Outcome of one orchestrator invocation: the HTTP status code of the
returned body, the trace of SageMaker control-plane calls in order, the
captured `previous_config_name`, and the body's `rollback_attempted`
flag (present only on the health-check-failure return, `false`
otherwise). -/
structure OrchResult where
  statusCode : ℕ
  calls : List Call
  priorConfig : Option String
  rollbackAttempted : Bool
deriving Repr, DecidableEq

/-- `lambda_handler` of `lambda/deployment_orchestrator/handler.py`,
from the point where bucket/key have been extracted. Inputs: the
endpoint name (env `ENDPOINT_NAME`), the extracted object key, the
result of `_validate_model_artifact`, the result of the
`describe_endpoint` call, the result of `_verify_endpoint_health`, and
the timestamp used for naming. Keys outside `models/approved/` are
ignored with a 200 response and no SageMaker call; validation failure
returns 400 with no SageMaker call; otherwise the model and endpoint
config are created, the endpoint is described, then updated when a
prior config name was found and created otherwise; a failed health
check triggers `_rollback_deployment`, which re-issues
`update_endpoint` with the prior config name only when one was
captured. -/
def deployment_lambda_handler (endpointName key : String)
    (validateOk : Bool) (describeRes : DescribeResult) (healthOk : Bool)
    (ts : ℕ) : OrchResult :=
  if ¬ startsWithApproved key then
    { statusCode := 200, calls := [], priorConfig := none,
      rollbackAttempted := false }
  else if ¬ validateOk then
    { statusCode := 400, calls := [], priorConfig := none,
      rollbackAttempted := false }
  else
    let modelName := model_name_from_key key ts
    let cfgName := endpoint_config_name modelName
    let prior := describePrior describeRes
    let reconcileCall :=
      match prior with
      | some _ => Call.updateEndpoint endpointName cfgName
      | none => Call.createEndpoint endpointName cfgName
    let baseCalls := [Call.createModel modelName,
                      Call.createEndpointConfig cfgName modelName,
                      Call.describeEndpoint endpointName,
                      reconcileCall]
    if healthOk then
      { statusCode := 200, calls := baseCalls, priorConfig := prior,
        rollbackAttempted := false }
    else
      let rollbackCalls :=
        match prior with
        | some p => [Call.updateEndpoint endpointName p]
        | none => []
      { statusCode := 500, calls := baseCalls ++ rollbackCalls,
        priorConfig := prior, rollbackAttempted := true }

/-- Result of `describe_endpoint` as seen by
`lambda-function/trigger-new-file.py`: success with a status string, or
a `ClientError` carrying an error code. -/
inductive TriggerDescribeResult where
  | ok (status : String)
  | clientError (code : String)
deriving Repr, DecidableEq

/-- Step 4 of `trigger-new-file.py`'s `lambda_handler`: describe the
endpoint; on success update it only when the status is `InService` or
`Failed` and do nothing when it is `Creating` or `Updating` (or any
other in-transition status); on a `ClientError` create the endpoint
when the code is `ValidationException` or `ResourceNotFound`, and
re-raise any other error. Returns the endpoint calls made, or the
re-raised error code. -/
def trigger_reconcile (describeRes : TriggerDescribeResult)
    (endpointName cfgName : String) : Except String (List Call) :=
  match describeRes with
  | .ok status =>
      if status = "InService" ∨ status = "Failed" then
        .ok [Call.updateEndpoint endpointName cfgName]
      else if status = "Creating" then .ok []
      else if status = "Updating" then .ok []
      else .ok []
  | .clientError code =>
      if code = "ValidationException" ∨ code = "ResourceNotFound" then
        .ok [Call.createEndpoint endpointName cfgName]
      else .error code

/-- The tail of `trigger-new-file.py`'s `lambda_handler`: after the
reconcile step (and the best-effort cleanup, which issues no endpoint
create/update calls) the handler returns HTTP 200; a re-raised describe
error propagates out of the invocation. -/
def trigger_lambda_handler (describeRes : TriggerDescribeResult)
    (endpointName cfgName : String) : Except String (ℕ × List Call) :=
  match trigger_reconcile describeRes endpointName cfgName with
  | .ok calls => .ok (200, calls)
  | .error e => .error e

/-- Result of one `describe_endpoint` poll inside
`_verify_endpoint_health`: success with a status string;
`notFoundError` for a `ClientError` matching
`'Could not find'`/`'ResourceNotFound'` (returns `False` directly); or
any other exception, which is re-raised and caught by the function's
outer `except`, which also returns `False`. -/
inductive HealthDescribe where
  | ok (status : String)
  | notFoundError
  | otherError
deriving Repr, DecidableEq

/-- `true` for a poll answer that keeps `_verify_endpoint_health`
waiting: a successful describe whose status is none of `InService`,
`Failed`, `OutOfService`. -/
def stillDeploying : HealthDescribe → Bool
  | .ok s => !(s == "InService") && !(s == "Failed") && !(s == "OutOfService")
  | .notFoundError => false
  | .otherError => false

/-- The `while time.time() - start_time < max_wait_time` loop of
`_verify_endpoint_health`, with time modelled explicitly: `elapsed`
seconds have passed, the `i`-th poll is next, and each transitional
poll is followed by `time.sleep(30)`. -/
def verify_loop (d : ℕ → HealthDescribe) (maxWait : ℕ) :
    (elapsed : ℕ) → (i : ℕ) → Bool
  | elapsed, i =>
    if _h : elapsed < maxWait then
      match d i with
      | .ok s =>
          if s = "InService" then true
          else if s = "Failed" ∨ s = "OutOfService" then false
          else verify_loop d maxWait (elapsed + 30) (i + 1)
      | .notFoundError => false
      | .otherError => false
    else false
termination_by elapsed _ => maxWait - elapsed
decreasing_by simp_wf; omega

/-- `_verify_endpoint_health(endpoint_name)` with its default
`max_wait_time=300`, as a function of the sequence of poll results. -/
def verify_endpoint_health (d : ℕ → HealthDescribe) : Bool :=
  verify_loop d 300 0 0

/-- The example metrics from the spec's testable property 2. -/
def exampleMetrics : List (String × ℚ) :=
  [("accuracy", 0.86), ("f1_score", 0.81), ("precision", 0.76),
   ("recall", 0.76)]

/-- The default thresholds from the spec's testable property 2. -/
def exampleThresholds : List (String × ℚ) :=
  [("accuracy", 0.85), ("f1_score", 0.80), ("precision", 0.75),
   ("recall", 0.75)]

theorem check_metric_passed_iff (m : List (String × ℚ)) (p : String × ℚ) :
    (check_metric m p).2.passed = true ↔
      ∃ v, m.lookup p.1 = some v ∧ p.2 ≤ v := by
  unfold check_metric
  cases hm : m.lookup p.1 <;> simp [hm]

theorem check_metric_of_lookup_none (m : List (String × ℚ))
    (p : String × ℚ) (h : m.lookup p.1 = none) :
    check_metric m p =
      (p.1, { status := "missing", value := none, threshold := p.2,
              passed := false }) := by
  unfold check_metric
  rw [h]

theorem check_metric_status_of_passed (m : List (String × ℚ))
    (p : String × ℚ) (h : (check_metric m p).2.passed = true) :
    (check_metric m p).2.status = "pass" := by
  unfold check_metric at h ⊢
  cases hm : m.lookup p.1 <;> rw [hm] at h <;> simp_all

theorem perform_evaluation_passed_iff (m t : List (String × ℚ)) :
    (perform_evaluation m t).passed = true ↔
      ∀ p ∈ t, ∃ v, m.lookup p.1 = some v ∧ p.2 ≤ v := by
  show (List.all _ _) = true ↔ _
  rw [List.all_eq_true]
  constructor
  · intro h p hp
    exact (check_metric_passed_iff m p).mp (h _ (List.mem_map_of_mem _ hp))
  · intro h r hr
    obtain ⟨p, hp, rfl⟩ := List.mem_map.mp hr
    exact (check_metric_passed_iff m p).mpr (h p hp)

theorem example_eval_passed :
    (perform_evaluation exampleMetrics exampleThresholds).passed
      = true := by
  have h1 : exampleMetrics.lookup "accuracy" = some 0.86 := rfl
  have h2 : exampleMetrics.lookup "f1_score" = some 0.81 := rfl
  have h3 : exampleMetrics.lookup "precision" = some 0.76 := rfl
  have h4 : exampleMetrics.lookup "recall" = some 0.76 := rfl
  simp only [perform_evaluation, check_metric, exampleThresholds,
    List.map, h1, h2, h3, h4, List.all_cons, List.all_nil]
  norm_num

theorem example_eval_pass_rate :
    (perform_evaluation exampleMetrics exampleThresholds).summary.pass_rate
      = 1 := by
  have h1 : exampleMetrics.lookup "accuracy" = some 0.86 := rfl
  have h2 : exampleMetrics.lookup "f1_score" = some 0.81 := rfl
  have h3 : exampleMetrics.lookup "precision" = some 0.76 := rfl
  have h4 : exampleMetrics.lookup "recall" = some 0.76 := rfl
  simp only [perform_evaluation, check_metric, exampleThresholds,
    List.map, h1, h2, h3, h4, List.countP_cons, List.countP_nil,
    List.length_cons, List.length_nil]
  norm_num

/-- C2 — All-or-nothing pass: `perform_evaluation(m,t)['passed']` is
true iff every threshold key is present in the metrics with a value
`>=` its threshold (non-strict); and the spec's example metrics pass
the default thresholds with `pass_rate = 1.0`. -/
theorem all_or_nothing_pass :
    (∀ m t : List (String × ℚ),
      (perform_evaluation m t).passed = true ↔
        ∀ p ∈ t, ∃ v, m.lookup p.1 = some v ∧ p.2 ≤ v) ∧
    (perform_evaluation exampleMetrics exampleThresholds).passed = true ∧
    (perform_evaluation exampleMetrics exampleThresholds).summary.pass_rate
      = 1 :=
  ⟨perform_evaluation_passed_iff, example_eval_passed,
   example_eval_pass_rate⟩

/-- Witness for C2's universally quantified part, at the example
inputs. -/
theorem all_or_nothing_pass_witness :
    (perform_evaluation exampleMetrics exampleThresholds).passed = true :=
  all_or_nothing_pass.2.1

/-- C5 — Evaluation report invariant: `passed` is true iff
`failed_checks = 0` and no result has status `"missing"`; and every
threshold key absent from the metrics yields a `"missing"` result entry
with `passed = false` (never silently skipped). -/
theorem evaluation_report_invariant :
    ∀ m t : List (String × ℚ),
      ((perform_evaluation m t).passed = true ↔
        (perform_evaluation m t).summary.failed_checks = 0 ∧
        ((perform_evaluation m t).results.countP
          fun r => r.2.status == "missing") = 0) ∧
      (∀ p ∈ t, m.lookup p.1 = none →
        (p.1, { status := "missing", value := none, threshold := p.2,
                passed := false }) ∈ (perform_evaluation m t).results) := by
  intro m t
  constructor
  · show ((t.map (check_metric m)).all fun r => r.2.passed) = true ↔
      t.length - ((t.map (check_metric m)).countP fun r => r.2.passed) = 0 ∧ _
    rw [List.all_eq_true]
    constructor
    · intro h
      refine ⟨?_, ?_⟩
      · rw [Nat.sub_eq_zero_iff_le]
        calc t.length = (t.map (check_metric m)).length :=
              (List.length_map _ _).symm
          _ ≤ _ := le_of_eq (List.countP_eq_length.mpr h).symm
      · rw [List.countP_eq_zero]
        intro r hr
        obtain ⟨p, hp, rfl⟩ := List.mem_map.mp hr
        rw [check_metric_status_of_passed m p (h _ (List.mem_map_of_mem _ hp))]
        simp
    · rintro ⟨h, -⟩
      rw [Nat.sub_eq_zero_iff_le] at h
      have hlen : ((t.map (check_metric m)).countP fun r => r.2.passed)
          = (t.map (check_metric m)).length := by
        have := List.countP_le_length (l := t.map (check_metric m))
          (fun r => r.2.passed)
        rw [List.length_map] at *
        omega
      exact List.countP_eq_length.mp hlen
  · intro p hp hnone
    exact List.mem_map.mpr ⟨p, hp, check_metric_of_lookup_none m p hnone⟩

/-- Witness for C5 at a concrete input with a missing metric: the key
`f1_score` is absent from the metrics, so the report fails and records
a `"missing"` entry. -/
theorem evaluation_report_invariant_witness :
    (("f1_score" : String),
      ({ status := "missing", value := none, threshold := 0.80,
         passed := false } : CheckResult)) ∈
      (perform_evaluation [("accuracy", 0.99)]
        [("accuracy", 0.85), ("f1_score", 0.80)]).results :=
  (evaluation_report_invariant [("accuracy", 0.99)]
      [("accuracy", 0.85), ("f1_score", 0.80)]).2
    ("f1_score", 0.80) (by simp) rfl

/-- C6 — Threshold monotonicity: raising metric values (keeping the
same key set) never flips the evaluation from pass to fail. -/
theorem threshold_monotonicity
    (m m' t : List (String × ℚ))
    (hkeys : ∀ k, (m.lookup k).isSome ↔ (m'.lookup k).isSome)
    (hmono : ∀ k v v', m.lookup k = some v → m'.lookup k = some v' →
      v ≤ v')
    (hp : (perform_evaluation m t).passed = true) :
    (perform_evaluation m' t).passed = true := by
  rw [perform_evaluation_passed_iff] at hp ⊢
  intro p hpt
  obtain ⟨v, hv, hle⟩ := hp p hpt
  have hsome : (m'.lookup p.1).isSome := (hkeys p.1).mp (by simp [hv])
  obtain ⟨v', hv'⟩ := Option.isSome_iff_exists.mp hsome
  exact ⟨v', hv', le_trans hle (hmono p.1 v v' hv hv')⟩

/-- Witness for C6: raising every metric of the passing example keeps
it passing. -/
theorem threshold_monotonicity_witness :
    (perform_evaluation
      [("accuracy", 0.90), ("f1_score", 0.85), ("precision", 0.80),
       ("recall", 0.80)] exampleThresholds).passed = true := by
  refine threshold_monotonicity exampleMetrics _ exampleThresholds
    ?_ ?_ example_eval_passed
  · intro k
    simp only [exampleMetrics, List.lookup]
    cases hk : k == "accuracy" <;> cases hk2 : k == "f1_score" <;>
      cases hk3 : k == "precision" <;> cases hk4 : k == "recall" <;> simp
  · intro k v v' hv hv'
    simp only [exampleMetrics, List.lookup] at hv hv'
    cases hk : k == "accuracy" <;> rw [hk] at hv hv' <;>
      cases hk2 : k == "f1_score" <;> try rw [hk2] at hv hv'
    all_goals cases hk3 : k == "precision" <;> try rw [hk3] at hv hv'
    all_goals cases hk4 : k == "recall" <;> try rw [hk4] at hv hv'
    all_goals simp_all
    all_goals subst hv
    all_goals subst hv'
    all_goals norm_num

theorem lookup_eq_none_of_not_mem_keys {α β : Type} [BEq α] [LawfulBEq α]
    {k : α} {e : List (α × β)} (h : k ∉ e.map Prod.fst) :
    e.lookup k = none := by
  induction e with
  | nil => rfl
  | cons a es ih =>
    simp only [List.map_cons, List.mem_cons, not_or] at h
    have hne : (k == a.1) = false := beq_eq_false_iff_ne.mpr h.1
    simp only [List.lookup, hne]
    exact ih h.2

theorem lookup_append_of_not_mem_keys {α β : Type} [BEq α] [LawfulBEq α]
    {k : α} {m e : List (α × β)} (h : k ∉ e.map Prod.fst) :
    (m ++ e).lookup k = m.lookup k := by
  induction m with
  | nil => simpa using lookup_eq_none_of_not_mem_keys h
  | cons a ms ih =>
    simp only [List.cons_append, List.lookup]
    cases k == a.1 <;> simp [ih]

/-- C9 — Evaluation depends only on thresholded metrics: appending
extra metrics whose keys name no threshold leaves the whole report
(passed flag, results, summary) unchanged. -/
theorem evaluation_ignores_extra_metrics
    (m e t : List (String × ℚ))
    (hdisj : ∀ p ∈ t, p.1 ∉ e.map Prod.fst) :
    perform_evaluation (m ++ e) t = perform_evaluation m t := by
  have hmap : t.map (check_metric (m ++ e)) = t.map (check_metric m) :=
    List.map_congr_left fun p hp => by
      unfold check_metric
      rw [lookup_append_of_not_mem_keys (hdisj p hp)]
  simp only [perform_evaluation, hmap]

/-- Witness for C9: adding an extra, un-thresholded `loss` metric to
the example metrics leaves the report unchanged. -/
theorem evaluation_ignores_extra_metrics_witness :
    perform_evaluation (exampleMetrics ++ [("loss", 0.1)])
        exampleThresholds =
      perform_evaluation exampleMetrics exampleThresholds :=
  evaluation_ignores_extra_metrics exampleMetrics [("loss", 0.1)]
    exampleThresholds (by simp [exampleThresholds])

/-- C4 — Approval decision postcondition: a failed report yields
`approved=false` with the ordered failed-metric names and zero storage
copies; a passed report performs exactly one copy, and a failed copy
still yields `approved=false` with the error captured and a message
distinct from the evaluation-failure message. -/
theorem approval_decision_postcondition :
    ∀ (report : EvalReport) (upload : Except String String),
      (report.passed = false →
        (handle_model_approval report upload).1.approved = false ∧
        (handle_model_approval report upload).1.failed_metrics =
          some ((report.results.filter fun r => !r.2.passed).map
            fun r => r.1) ∧
        (handle_model_approval report upload).2 = 0) ∧
      (report.passed = true →
        (handle_model_approval report upload).2 = 1 ∧
        ∀ e, upload = .error e →
          (handle_model_approval report upload).1.approved = false ∧
          (handle_model_approval report upload).1.error =
            some ("Failed to upload approved model: " ++ e) ∧
          (handle_model_approval report upload).1.message ≠
            "Model failed evaluation and was not approved for deployment") := by
  intro report upload
  cases hpass : report.passed <;> cases upload <;>
    simp [handle_model_approval, hpass]

/-- Witness for C4: a failing report (missing metric) makes zero copy
calls; a passing report with a failing copy is still not approved. -/
theorem approval_decision_postcondition_witness :
    (handle_model_approval (perform_evaluation [] [("accuracy", 0.85)])
      (.ok "path")).2 = 0 ∧
    (handle_model_approval
      (perform_evaluation exampleMetrics exampleThresholds)
      (.error "copy failed")).1.approved = false :=
  ⟨((approval_decision_postcondition
      (perform_evaluation [] [("accuracy", 0.85)]) (.ok "path")).1
      rfl).2.2,
   (((approval_decision_postcondition
      (perform_evaluation exampleMetrics exampleThresholds)
      (.error "copy failed")).2 example_eval_passed).2
      "copy failed" rfl).1⟩

/-- C7 — Non-approved path ignored: any event whose extracted key is
outside `models/approved/` returns HTTP 200 and issues no SageMaker
control-plane call at all. -/
theorem non_approved_path_ignored :
    ∀ (ep key : String) (validateOk : Bool)
      (describeRes : DescribeResult) (healthOk : Bool) (ts : ℕ),
      startsWithApproved key = false →
      deployment_lambda_handler ep key validateOk describeRes healthOk
          ts =
        { statusCode := 200, calls := [], priorConfig := none,
          rollbackAttempted := false } := by
  intro ep key v d h ts hk
  simp [deployment_lambda_handler, hk]

/-- Witness for C7 at a key outside the approved prefix. -/
theorem non_approved_path_ignored_witness :
    deployment_lambda_handler "ep" "models/raw/some-model.tar.gz" true
        .notFound true 0 =
      { statusCode := 200, calls := [], priorConfig := none,
        rollbackAttempted := false } :=
  non_approved_path_ignored "ep" "models/raw/some-model.tar.gz" true
    .notFound true 0 (by decide)

/-- C3 — Rollback only with prior state: when the health check fails,
a captured prior config name leads to a second `update_endpoint` call
whose argument is that prior name (the RolledBack outcome); without a
prior config name no `update_endpoint` call is made at all (the
FailedNoRollback outcome; the create path has no "before" to return
to). Both paths return HTTP 500. -/
theorem rollback_only_with_prior_state :
    ∀ (ep key : String) (describeRes : DescribeResult) (ts : ℕ),
      startsWithApproved key = true →
      (∀ st p, describeRes = .ok st (some p) →
        deployment_lambda_handler ep key true describeRes false ts =
          { statusCode := 500,
            calls := [.createModel (model_name_from_key key ts),
                      .createEndpointConfig
                        (endpoint_config_name (model_name_from_key key ts))
                        (model_name_from_key key ts),
                      .describeEndpoint ep,
                      .updateEndpoint ep
                        (endpoint_config_name (model_name_from_key key ts)),
                      .updateEndpoint ep p],
            priorConfig := some p, rollbackAttempted := true }) ∧
      (describePrior describeRes = none →
        deployment_lambda_handler ep key true describeRes false ts =
          { statusCode := 500,
            calls := [.createModel (model_name_from_key key ts),
                      .createEndpointConfig
                        (endpoint_config_name (model_name_from_key key ts))
                        (model_name_from_key key ts),
                      .describeEndpoint ep,
                      .createEndpoint ep
                        (endpoint_config_name (model_name_from_key key ts))],
            priorConfig := none, rollbackAttempted := true } ∧
        ((deployment_lambda_handler ep key true describeRes false
            ts).calls.countP fun c => isUpdateCall c) = 0) := by
  intro ep key d ts hk
  constructor
  · rintro st p rfl
    simp [deployment_lambda_handler, hk, describePrior]
  · intro hprior
    have hmain :
        deployment_lambda_handler ep key true d false ts =
          { statusCode := 500,
            calls := [.createModel (model_name_from_key key ts),
                      .createEndpointConfig
                        (endpoint_config_name (model_name_from_key key ts))
                        (model_name_from_key key ts),
                      .describeEndpoint ep,
                      .createEndpoint ep
                        (endpoint_config_name (model_name_from_key key ts))],
            priorConfig := none, rollbackAttempted := true } := by
      simp [deployment_lambda_handler, hk, hprior]
    refine ⟨hmain, ?_⟩
    rw [hmain]
    simp [isUpdateCall]

/-- Witness for C3: concrete rollback (prior config captured) and
no-rollback (endpoint absent) runs with a failed health check. -/
theorem rollback_only_with_prior_state_witness :
    deployment_lambda_handler "ep" "models/approved/m.tar.gz" true
        (.ok "InService" (some "old-cfg")) false 7 =
      { statusCode := 500,
        calls := [.createModel (model_name_from_key "models/approved/m.tar.gz" 7),
                  .createEndpointConfig
                    (endpoint_config_name
                      (model_name_from_key "models/approved/m.tar.gz" 7))
                    (model_name_from_key "models/approved/m.tar.gz" 7),
                  .describeEndpoint "ep",
                  .updateEndpoint "ep"
                    (endpoint_config_name
                      (model_name_from_key "models/approved/m.tar.gz" 7)),
                  .updateEndpoint "ep" "old-cfg"],
        priorConfig := some "old-cfg", rollbackAttempted := true } ∧
    ((deployment_lambda_handler "ep" "models/approved/m.tar.gz" true
        .notFound false 7).calls.countP fun c => isUpdateCall c) = 0 :=
  ⟨((rollback_only_with_prior_state "ep" "models/approved/m.tar.gz"
      (.ok "InService" (some "old-cfg")) 7 (by decide)).1 "InService"
      "old-cfg" rfl),
   ((rollback_only_with_prior_state "ep" "models/approved/m.tar.gz"
      .notFound 7 (by decide)).2 rfl).2⟩

/-- C1 (amended) — Reconciler branch selection. For the deployment
orchestrator, reaching the reconciliation step: a NotFound describe
leads to `create_endpoint` (and no update), and a successful describe
that carries a prior config name leads to `update_endpoint` with the
new config and the prior name captured — for every status, including
`Creating`/`Updating` (the orchestrator branches only on the presence
of the prior config name). For the trigger-new-file reconciler: a
NotFound error code leads to `create_endpoint`; status `InService`
leads to `update_endpoint` (no prior config is captured there); status
`Creating` or `Updating` leads to neither call and the handler returns
HTTP 200 (Skip). -/
theorem reconciler_branch_selection :
    ∀ (ep key cfg : String) (ts : ℕ),
      (startsWithApproved key = true →
        (deployment_lambda_handler ep key true .notFound true ts =
          { statusCode := 200,
            calls := [.createModel (model_name_from_key key ts),
                      .createEndpointConfig
                        (endpoint_config_name (model_name_from_key key ts))
                        (model_name_from_key key ts),
                      .describeEndpoint ep,
                      .createEndpoint ep
                        (endpoint_config_name (model_name_from_key key ts))],
            priorConfig := none, rollbackAttempted := false }) ∧
        (∀ st p,
          deployment_lambda_handler ep key true (.ok st (some p)) true ts =
            { statusCode := 200,
              calls := [.createModel (model_name_from_key key ts),
                        .createEndpointConfig
                          (endpoint_config_name (model_name_from_key key ts))
                          (model_name_from_key key ts),
                        .describeEndpoint ep,
                        .updateEndpoint ep
                          (endpoint_config_name
                            (model_name_from_key key ts))],
              priorConfig := some p, rollbackAttempted := false })) ∧
      (trigger_reconcile (.clientError "ResourceNotFound") ep cfg =
        .ok [.createEndpoint ep cfg]) ∧
      (trigger_reconcile (.ok "InService") ep cfg =
        .ok [.updateEndpoint ep cfg]) ∧
      (trigger_reconcile (.ok "Creating") ep cfg = .ok []) ∧
      (trigger_reconcile (.ok "Updating") ep cfg = .ok []) ∧
      (trigger_lambda_handler (.ok "Creating") ep cfg = .ok (200, [])) ∧
      (trigger_lambda_handler (.ok "Updating") ep cfg = .ok (200, [])) := by
  intro ep key cfg ts
  refine ⟨fun hk => ⟨?_, ?_⟩, ?_, ?_, ?_, ?_, ?_, ?_⟩
  · simp [deployment_lambda_handler, hk, describePrior]
  · intro st p
    simp [deployment_lambda_handler, hk, describePrior]
  all_goals simp [trigger_reconcile, trigger_lambda_handler]

/-- Witness for C1 (amended) at concrete inputs: the orchestrator's
create branch on a NotFound describe. -/
theorem reconciler_branch_selection_witness :
    deployment_lambda_handler "ep" "models/approved/m.tar.gz" true
        .notFound true 3 =
      { statusCode := 200,
        calls := [.createModel
                    (model_name_from_key "models/approved/m.tar.gz" 3),
                  .createEndpointConfig
                    (endpoint_config_name
                      (model_name_from_key "models/approved/m.tar.gz" 3))
                    (model_name_from_key "models/approved/m.tar.gz" 3),
                  .describeEndpoint "ep",
                  .createEndpoint "ep"
                    (endpoint_config_name
                      (model_name_from_key "models/approved/m.tar.gz" 3))],
        priorConfig := none, rollbackAttempted := false } :=
  ((reconciler_branch_selection "ep" "models/approved/m.tar.gz" "cfg" 3).1
    (by decide)).1

/-- Counterexample to C1 as stated: when `describe_endpoint` succeeds
with status `Creating` (and, as in the real control plane, a config
name), the deployment orchestrator issues an `update_endpoint` call —
it does not skip, contradicting "neither endpoint_create nor
endpoint_update is called" for the Creating case. -/
theorem reconciler_branch_selection_cex :
    ((deployment_lambda_handler "ep" "models/approved/m.tar.gz" true
        (.ok "Creating" (some "old-cfg")) true 0).calls.countP
      fun c => isUpdateCall c) = 1 := by
  have hk : startsWithApproved "models/approved/m.tar.gz" = true := by
    decide
  simp [deployment_lambda_handler, hk, describePrior, isUpdateCall]


theorem verify_loop_true_iff (d : ℕ → HealthDescribe) (maxWait : ℕ) :
    ∀ e i, (verify_loop d maxWait e i = true ↔
      ∃ k, e + 30 * k < maxWait ∧ d (i + k) = .ok "InService" ∧
        ∀ j < k, stillDeploying (d (i + j)) = true) := by
  suffices H : ∀ μ e i, maxWait - e = μ →
      (verify_loop d maxWait e i = true ↔
        ∃ k, e + 30 * k < maxWait ∧ d (i + k) = .ok "InService" ∧
          ∀ j < k, stillDeploying (d (i + j)) = true) by
    exact fun e i => H (maxWait - e) e i rfl
  intro μ
  induction μ using Nat.strong_induction_on with
  | _ μ ih =>
    intro e i hμ
    rw [verify_loop]
    by_cases h : e < maxWait
    · rw [dif_pos h]
      split
      next s hd =>
        by_cases hs : s = "InService"
        · subst hs
          rw [if_pos rfl]
          refine iff_of_true rfl ⟨0, by omega, ?_, by omega⟩
          simpa using hd
        · rw [if_neg hs]
          by_cases hf : s = "Failed" ∨ s = "OutOfService"
          · rw [if_pos hf]
            refine iff_of_false (by simp) ?_
            rintro ⟨k, hk, hins, hall⟩
            cases k with
            | zero =>
              rw [Nat.add_zero] at hins
              rw [hd] at hins
              exact hs (by injection hins)
            | succ k' =>
              have h0 := hall 0 (Nat.succ_pos k')
              rw [Nat.add_zero, hd] at h0
              rcases hf with hf | hf <;> subst hf <;>
                simp [stillDeploying] at h0
          · rw [if_neg hf]
            push_neg at hf
            have hrec := ih (maxWait - (e + 30)) (by omega) (e + 30) (i + 1)
              rfl
            rw [hrec]
            constructor
            · rintro ⟨k, hk, hins, hall⟩
              refine ⟨k + 1, by omega, ?_, ?_⟩
              · have hx : i + (k + 1) = i + 1 + k := by omega
                rw [hx]
                exact hins
              · intro j hj
                cases j with
                | zero =>
                  rw [Nat.add_zero, hd]
                  simp [stillDeploying, hs, hf.1, hf.2]
                | succ j' =>
                  have hx : i + (j' + 1) = i + 1 + j' := by omega
                  rw [hx]
                  exact hall j' (by omega)
            · rintro ⟨k, hk, hins, hall⟩
              cases k with
              | zero =>
                rw [Nat.add_zero, hd] at hins
                exact absurd (by injection hins) hs
              | succ k' =>
                refine ⟨k', by omega, ?_, ?_⟩
                · have hx : i + 1 + k' = i + (k' + 1) := by omega
                  rw [hx]
                  exact hins
                · intro j hj
                  have hx : i + 1 + j = i + (j + 1) := by omega
                  rw [hx]
                  exact hall (j + 1) (by omega)
      next hd =>
        refine iff_of_false (by simp) ?_
        rintro ⟨k, hk, hins, hall⟩
        cases k with
        | zero => rw [Nat.add_zero, hd] at hins; exact absurd hins (by simp)
        | succ k' =>
          have h0 := hall 0 (Nat.succ_pos k')
          rw [Nat.add_zero, hd] at h0
          simp [stillDeploying] at h0
      next hd =>
        refine iff_of_false (by simp) ?_
        rintro ⟨k, hk, hins, hall⟩
        cases k with
        | zero => rw [Nat.add_zero, hd] at hins; exact absurd hins (by simp)
        | succ k' =>
          have h0 := hall 0 (Nat.succ_pos k')
          rw [Nat.add_zero, hd] at h0
          simp [stillDeploying] at h0
    · rw [dif_neg h]
      exact iff_of_false (by simp) (by rintro ⟨k, hk, -, -⟩; omega)

/-- C8 — Bounded health-check polling: with polls 30 seconds apart
under a 300-second ceiling, the check succeeds exactly when some poll
within the ceiling observes `InService` after only transitional
statuses; every other evolution (a `Failed`/`OutOfService` poll, an
error, or the ceiling elapsing) returns failure, and the result is
determined by the first 10 polls (the loop always terminates within
the ceiling). -/
theorem bounded_health_check_polling :
    ∀ d : ℕ → HealthDescribe,
      (verify_endpoint_health d = true ↔
        ∃ k, 30 * k < 300 ∧ d k = .ok "InService" ∧
          ∀ j < k, stillDeploying (d j) = true) ∧
      (∀ d' : ℕ → HealthDescribe, (∀ j < 10, d j = d' j) →
        verify_endpoint_health d = verify_endpoint_health d') := by
  intro d
  have h1 := verify_loop_true_iff d 300 0 0
  simp only [Nat.zero_add] at h1
  constructor
  · exact h1
  · intro d' hag
    have h2 := verify_loop_true_iff d' 300 0 0
    simp only [Nat.zero_add] at h2
    rw [Bool.eq_iff_iff]
    show verify_loop d 300 0 0 = true ↔ verify_loop d' 300 0 0 = true
    rw [h1, h2]
    constructor
    · rintro ⟨k, hk, hins, hall⟩
      exact ⟨k, hk, by rw [← hag k (by omega)]; exact hins,
        fun j hj => by rw [← hag j (by omega)]; exact hall j hj⟩
    · rintro ⟨k, hk, hins, hall⟩
      exact ⟨k, hk, by rw [hag k (by omega)]; exact hins,
        fun j hj => by rw [hag j (by omega)]; exact hall j hj⟩

/-- Witness for C8: a transitional poll followed by `InService`
succeeds, and two poll sequences agreeing on the first 10 polls give
the same verdict. -/
theorem bounded_health_check_polling_witness :
    verify_endpoint_health
        (fun i => if i = 0 then .ok "Creating" else .ok "InService") =
      true ∧
    verify_endpoint_health (fun _ => .ok "Creating") =
      verify_endpoint_health
        (fun i => if i < 10 then .ok "Creating" else .ok "InService") := by
  constructor
  · exact (bounded_health_check_polling _).1.mpr
      ⟨1, by norm_num, rfl, by decide⟩
  · exact (bounded_health_check_polling _).2 _ (by decide)

/-- C10 — Health check is total and maps errors to failure: the
embedded `_verify_endpoint_health` returns a boolean for every input
(re-raised exceptions are caught by its outer `except`, modelled by
the `otherError` branch), and any describe error reached mid-polling
— including the endpoint not being found — makes it return `false`
immediately. -/
theorem health_check_error_returns_false :
    ∀ (d : ℕ → HealthDescribe) (i : ℕ),
      30 * i < 300 →
      (∀ j < i, stillDeploying (d j) = true) →
      (d i = .notFoundError ∨ d i = .otherError) →
      verify_endpoint_health d = false := by
  intro d i hi hall herr
  cases hb : verify_endpoint_health d
  · rfl
  · exfalso
    rw [verify_endpoint_health] at hb
    rw [verify_loop_true_iff d 300 0 0] at hb
    obtain ⟨k, hk, hins, hallk⟩ := hb
    simp only [Nat.zero_add] at hk hins hallk
    rcases lt_trichotomy k i with hlt | rfl | hgt
    · have hsd := hall k hlt
      rw [hins] at hsd
      simp [stillDeploying] at hsd
    · rcases herr with h | h <;> rw [h] at hins <;> exact absurd hins (by simp)
    · have hsd := hallk i hgt
      rcases herr with h | h <;> rw [h] at hsd <;>
        simp [stillDeploying] at hsd

/-- Witness for C10: two transitional polls followed by a NotFound
error yield failure. -/
theorem health_check_error_returns_false_witness :
    verify_endpoint_health
      (fun i => if i < 2 then .ok "Creating" else .notFoundError) = false :=
  health_check_error_returns_false _ 2 (by norm_num) (by decide)
    (Or.inl rfl)
